import Mathlib

/-!
Verification of the LiST-ML host-metrics collector core against its design
specification.

The sampler (`sample_cpu_usage`) and the producer/consumer loops of `main`
are embedded from the C++ sources
`src/sys_anamoly_detector/collector/src/sampler.cpp` and
`src/collector/src/main.cpp`.  Machine integers (`uint64_t`) are embedded as
`Nat` together with explicit reduction modulo `2 ^ 64` where C++ performs
wrap-around arithmetic; IEEE-double division is embedded as exact rational
division (`ℚ`), with a zero denominator mapped to `none` (in C++ it yields a
NaN or an infinity, which has no rational counterpart).  Integer-to-double
conversion and rational rounding are monotone, so the bound and comparison
facts proved below about the rational values also hold of the doubles the
program computes.

The sample queue (`Samplequeue` in `main.cpp`) and the `Writer` class are
declared and used by the sources but their implementations are not part of
the repository sources; they are modelled from the specification where a
claim depends on their behaviour.
-/

/-- Modulus of 64-bit unsigned machine arithmetic (`uint64_t`). -/
def U64MOD : Nat := 2 ^ 64

/-- 64-bit unsigned subtraction `a - b` on `uint64_t` values (`a, b < 2^64`):
the result wraps modulo `2 ^ 64`. -/
def sub64 (a b : Nat) : Nat := (a + U64MOD - b) % U64MOD

/-- The raw CPU counter snapshot `cpusnap` returned by `read_cpu()`
(declared in `proc_reader.hpp`, used in `sampler.cpp`): seven cumulative
time-in-state counters, each a `uint64_t`. -/
structure cpusnap where
  user_time : Nat
  nice_time : Nat
  system_kernel_time : Nat
  idle_time : Nat
  iowait_time : Nat
  irq_time : Nat
  softirq_time : Nat
deriving DecidableEq, Repr

/-- A snapshot is well formed when every field fits in a `uint64_t`. -/
def cpusnap.wf (c : cpusnap) : Prop :=
  c.user_time < U64MOD ∧ c.nice_time < U64MOD ∧ c.system_kernel_time < U64MOD ∧
  c.idle_time < U64MOD ∧ c.iowait_time < U64MOD ∧ c.irq_time < U64MOD ∧
  c.softirq_time < U64MOD

instance (c : cpusnap) : Decidable c.wf := by
  unfold cpusnap.wf
  infer_instance

/-- Embedding of `sample_cpu_usage()` from
`src/sys_anamoly_detector/collector/src/sampler.cpp`, lines 11-31, with the
two `read_cpu()` results (`cpuatt`, `cpuatt1`) as parameters.  Each delta is
the `uint64_t` difference `cpuatt1.field - cpuatt.field`; `total_delta` is
the wrapping `uint64_t` sum of all seven deltas; the returned value is
`double(total_delta - idle_delta) / double(total_delta)` where the numerator
subtraction is again `uint64_t` subtraction.  A zero `total_delta` makes the
C++ division produce a NaN (or infinity), embedded here as `none`. -/
def sample_cpu_usage (cpuatt cpuatt1 : cpusnap) : Option ℚ :=
  let user_delta := sub64 cpuatt1.user_time cpuatt.user_time
  let nice_delta := sub64 cpuatt1.nice_time cpuatt.nice_time
  let system_delta := sub64 cpuatt1.system_kernel_time cpuatt.system_kernel_time
  let idle_delta := sub64 cpuatt1.idle_time cpuatt.idle_time
  let iowait_delta := sub64 cpuatt1.iowait_time cpuatt.iowait_time
  let irq_delta := sub64 cpuatt1.irq_time cpuatt.irq_time
  let softirq_delta := sub64 cpuatt1.softirq_time cpuatt.softirq_time
  let total_delta := (user_delta + nice_delta + system_delta + idle_delta +
      iowait_delta + irq_delta + softirq_delta) % U64MOD
  if total_delta = 0 then none
  else some ((sub64 total_delta idle_delta : ℚ) / (total_delta : ℚ))

/-- Modelled from the spec: the utilization formula of §4.1, which the
specification states as `idle_total = idle_delta + iowait_delta` and
`utilization = (total - idle_total) / total`.  This definition follows the
spec words (it is not the code); it exists to be compared with
`sample_cpu_usage`. -/
def spec_cpu_usage (cpuatt cpuatt1 : cpusnap) : Option ℚ :=
  let user_delta := sub64 cpuatt1.user_time cpuatt.user_time
  let nice_delta := sub64 cpuatt1.nice_time cpuatt.nice_time
  let system_delta := sub64 cpuatt1.system_kernel_time cpuatt.system_kernel_time
  let idle_delta := sub64 cpuatt1.idle_time cpuatt.idle_time
  let iowait_delta := sub64 cpuatt1.iowait_time cpuatt.iowait_time
  let irq_delta := sub64 cpuatt1.irq_time cpuatt.irq_time
  let softirq_delta := sub64 cpuatt1.softirq_time cpuatt.softirq_time
  let total_delta := (user_delta + nice_delta + system_delta + idle_delta +
      iowait_delta + irq_delta + softirq_delta) % U64MOD
  let idle_total := idle_delta + iowait_delta
  if total_delta = 0 then some 0
  else some (((total_delta : ℚ) - (idle_total : ℚ)) / (total_delta : ℚ))

/-- The derived, persisted unit of the pipeline: a normalized utilization
fraction plus a capture timestamp (spec §3, `UtilizationSample`). -/
structure UtilizationSample where
  timestamp : Nat
  utilization : ℚ
deriving DecidableEq, Repr

/-- Modelled from the spec: the state of the `Samplequeue` used by `main.cpp`
(its implementation, `queue.hpp`, is not among the repository sources).  Spec
§3/§4.2: an ordered sequence of buffered samples, a closed flag, and a bounded
capacity. -/
structure SampleQueue (α : Type) where
  buffer : List α
  closed : Bool
  cap : Nat
deriving DecidableEq, Repr

/-- Outcome of a `push` call as seen by the producer. -/
inductive PushResult where
  | ok
  | blocked
  | QueueClosedError
deriving DecidableEq, Repr

/-- Outcome of a `pop` call as seen by the consumer: a sample, the
"no more data" sentinel, or a blocking wait. -/
inductive PopResult (α : Type) where
  | item (s : α)
  | noMoreData
  | blocked
deriving DecidableEq, Repr

/-- Modelled from the spec: `push` (spec §4.2) fails with `QueueClosedError`
after `close()`, blocks while the queue is at capacity, and otherwise appends
the sample at the tail. -/
def SampleQueue.push (q : SampleQueue α) (s : α) : PushResult × SampleQueue α :=
  if q.closed then (.QueueClosedError, q)
  else if q.cap ≤ q.buffer.length then (.blocked, q)
  else (.ok, { q with buffer := q.buffer ++ [s] })

/-- Modelled from the spec: `pop` (spec §4.2) takes the sample at the head,
blocks while the queue is empty and still open, and returns the sentinel
"no more data" result once the queue is closed and empty. -/
def SampleQueue.pop (q : SampleQueue α) : PopResult α × SampleQueue α :=
  match q.buffer with
  | s :: rest => (.item s, { q with buffer := rest })
  | [] => if q.closed then (.noMoreData, q) else (.blocked, q)

/-- Modelled from the spec: `close()` (spec §4.2) only sets the closed flag;
it keeps every buffered sample. -/
def SampleQueue.close (q : SampleQueue α) : SampleQueue α :=
  { q with closed := true }

/-- Modelled from the spec: the `Writer` class used by `main.cpp`, named `FileWriter` here because Mathlib already declares `Writer` (its
implementation, `writer.hpp`, is not among the repository sources).  Records
written but not yet flushed sit in `buffered`; `durable` is the persistent
log (spec §4.3). -/
structure FileWriter where
  buffered : List UtilizationSample
  durable : List UtilizationSample
deriving DecidableEq, Repr

/-- Modelled from the spec: `writeSample` serializes one sample as one record
and appends it; until a flush, the record is only buffered (spec §4.3). -/
def FileWriter.write_sample (w : FileWriter) (s : UtilizationSample) : FileWriter :=
  { w with buffered := w.buffered ++ [s] }

/-- Modelled from the spec: a durability flush forces every buffered record
onto persistent storage (spec §4.3, glossary "Durability flush"). -/
def FileWriter.flush (w : FileWriter) : FileWriter :=
  { buffered := [], durable := w.durable ++ w.buffered }

/-- The primitive operations the consumer loop of `main.cpp` can perform on
the queue and the writer. -/
inductive CAction where
  | pop (s : UtilizationSample)
  | write_sample (s : UtilizationSample)
  | flush
  | close_writer
deriving DecidableEq, Repr

/-- Embedding of the consumer loop `write` of `src/collector/src/main.cpp`
lines 9-16, as the trace of actions it performs while popping the given
samples: per iteration `pop`, then `writer.write_sample(data)`, then
`writer.flush()`.  The loop body contains no call that closes the writer. -/
def writeLoopTrace : List UtilizationSample → List CAction
  | [] => []
  | s :: rest => .pop s :: .write_sample s :: .flush :: writeLoopTrace rest

/-- Effect of one consumer action on the writer state (`pop` does not touch
the writer). -/
def CAction.apply (w : FileWriter) : CAction → FileWriter
  | .pop _ => w
  | .write_sample s => w.write_sample s
  | .flush => w.flush
  | .close_writer => w

/-- Writer state after the consumer loop of `main.cpp` has processed the
given samples, starting from a fresh writer. -/
def runWriteLoop (samples : List UtilizationSample) : FileWriter :=
  (writeLoopTrace samples).foldl CAction.apply { buffered := [], durable := [] }

/-- The primitive operations the producer loop of `main.cpp` performs. -/
inductive PAction where
  | sample_usage
  | push
deriving DecidableEq, Repr

/-- Embedding of the producer loop of `main` in `src/collector/src/main.cpp`
lines 25-28: `while(true){ sample data = sample_usage(); samplequeue.push(data); }`.
`producerTrace n` is the action trace after `n` iterations.  The loop body
reads no shutdown flag (none exists in the program), so the trace does not
depend on when a shutdown is signaled. -/
def producerTrace : Nat → List PAction
  | 0 => []
  | n + 1 => producerTrace n ++ [.sample_usage, .push]

/-- Joint state of the producer task, the shared queue and the consumer task
(spec §5): the samples the producer still has to push, the queue, and the
samples the consumer has popped so far, in order. -/
structure ProdConsState (α : Type) where
  pending : List α
  q : SampleQueue α
  collected : List α
deriving DecidableEq, Repr

/-- One producer step: push the next pending sample; a blocked or rejected
push leaves the state unchanged (the producer waits and retries). -/
def prodStep (r : ProdConsState α) : ProdConsState α :=
  match r.pending with
  | [] => r
  | s :: rest =>
    match r.q.push s with
    | (.ok, q2) => { pending := rest, q := q2, collected := r.collected }
    | (.blocked, _) => r
    | (.QueueClosedError, _) => r

/-- One consumer step: pop once; a blocked pop or the sentinel leaves the
state unchanged (the consumer waits). -/
def consStep (r : ProdConsState α) : ProdConsState α :=
  match r.q.pop with
  | (.item s, q2) => { pending := r.pending, q := q2, collected := r.collected ++ [s] }
  | (.noMoreData, _) => r
  | (.blocked, _) => r

/-- Run an arbitrary interleaving of producer steps (`true`) and consumer
steps (`false`). -/
def runSched (sched : List Bool) (r : ProdConsState α) : ProdConsState α :=
  sched.foldl (fun st b => if b then prodStep st else consStep st) r

/-- Run producer steps until the given fuel is exhausted (used with fuel equal
to the number of pending samples, after which every sample has been pushed). -/
def finishPushes : Nat → ProdConsState α → ProdConsState α
  | 0, r => r
  | n + 1, r => finishPushes n (prodStep r)

/-- Pop repeatedly, collecting samples until the queue stops yielding items;
the fuel bounds the recursion. -/
def drainAux : Nat → SampleQueue α → List α
  | 0, _ => []
  | n + 1, q =>
    match q.pop with
    | (.item s, q2) => s :: drainAux n q2
    | (.noMoreData, _) => []
    | (.blocked, _) => []

/-- Drain a queue: pop until no more items come out. -/
def drain (q : SampleQueue α) : List α := drainAux q.buffer.length q

/-- Initial joint state: all samples pending, fresh open queue of capacity
`cap`, nothing collected. -/
def initState (L : List α) (cap : Nat) : ProdConsState α :=
  { pending := L, q := { buffer := [], closed := false, cap := cap }, collected := [] }

/-- The complete sequence of samples the consumer obtains when the producer
pushes the samples `L` into a fresh queue of capacity `cap`, under an
arbitrary interleaving `sched` of producer and consumer steps, followed by
the shutdown sequence of spec §4/§8: the producer finishes its pushes, the
queue is closed, and the consumer drains it to the sentinel. -/
def producerConsumerRun (sched : List Bool) (L : List α) (cap : Nat) : List α :=
  let r1 := runSched sched (initState L cap)
  let r2 := finishPushes r1.pending.length r1
  r2.collected ++ drain r2.q.close

/-- Invariant of the producer/queue/consumer run: the samples already
collected, the samples buffered in the queue and the samples still pending
concatenate to the original sequence; the queue is still open and keeps its
capacity. -/
def QInv (L : List α) (cap : Nat) (r : ProdConsState α) : Prop :=
  r.collected ++ r.q.buffer ++ r.pending = L ∧ r.q.closed = false ∧ r.q.cap = cap

lemma U64MOD_eq : U64MOD = 18446744073709551616 := by norm_num [U64MOD]

lemma sub64_of_le {a b : Nat} (hba : b ≤ a) (ha : a < U64MOD) : sub64 a b = a - b := by
  simp only [sub64, U64MOD_eq] at *
  omega

/-- C1: the spec requires `capture()` to special-case `total == 0` by
returning `0.0` with a `StaleCounterWarning`; the code has no such guard.
With frozen counters (two identical snapshots) every delta is `0`, the
division in `sampler.cpp` line 29 is performed with a zero denominator
(yielding an IEEE NaN, embedded as `none`), and no warning is signaled,
while the spec-required behaviour (`spec_cpu_usage`) yields `0`. -/
theorem c1_frozen_counters_not_guarded :
    sample_cpu_usage
        { user_time := 5, nice_time := 5, system_kernel_time := 5,
          idle_time := 5, iowait_time := 5, irq_time := 5, softirq_time := 5 }
        { user_time := 5, nice_time := 5, system_kernel_time := 5,
          idle_time := 5, iowait_time := 5, irq_time := 5, softirq_time := 5 }
      = none ∧
    spec_cpu_usage
        { user_time := 5, nice_time := 5, system_kernel_time := 5,
          idle_time := 5, iowait_time := 5, irq_time := 5, softirq_time := 5 }
        { user_time := 5, nice_time := 5, system_kernel_time := 5,
          idle_time := 5, iowait_time := 5, irq_time := 5, softirq_time := 5 }
      = some 0 := by
  constructor
  · simp only [sample_cpu_usage, sub64, U64MOD]
    norm_num
  · simp only [spec_cpu_usage, sub64, U64MOD]
    norm_num

/-- C2: the spec's utilization formula subtracts
`idle_total = idle_delta + iowait_delta`, but `sampler.cpp` line 29 subtracts
only `idle_delta` (the computed `iowait_delta` is never used).  On deltas
user=50, idle=30, iowait=20 the code returns `7/10` while the spec formula
gives `1/2`. -/
theorem c2_code_ignores_iowait :
    sample_cpu_usage
        { user_time := 0, nice_time := 0, system_kernel_time := 0,
          idle_time := 0, iowait_time := 0, irq_time := 0, softirq_time := 0 }
        { user_time := 50, nice_time := 0, system_kernel_time := 0,
          idle_time := 30, iowait_time := 20, irq_time := 0, softirq_time := 0 }
      = some (7 / 10) ∧
    spec_cpu_usage
        { user_time := 0, nice_time := 0, system_kernel_time := 0,
          idle_time := 0, iowait_time := 0, irq_time := 0, softirq_time := 0 }
        { user_time := 50, nice_time := 0, system_kernel_time := 0,
          idle_time := 30, iowait_time := 20, irq_time := 0, softirq_time := 0 }
      = some (1 / 2) ∧
    (7 / 10 : ℚ) ≠ 1 / 2 := by
  refine ⟨?_, ?_, by norm_num⟩
  · simp only [sample_cpu_usage, sub64, U64MOD]
    norm_num
  · simp only [spec_cpu_usage, sub64, U64MOD]
    norm_num

/-- C5: end-to-end scenario.  From counters A=(user=100, idle=900, others=0)
to B=(user=120, idle=950, others=0) the code computes deltas user=20,
idle=50, total=70, returns utilization `(70-50)/70 = 2/7`, and the consumer
loop records that sample as exactly one durable log record. -/
theorem c5_end_to_end_scenario :
    sub64 120 100 = 20 ∧ sub64 950 900 = 50 ∧
    sample_cpu_usage
        { user_time := 100, nice_time := 0, system_kernel_time := 0,
          idle_time := 900, iowait_time := 0, irq_time := 0, softirq_time := 0 }
        { user_time := 120, nice_time := 0, system_kernel_time := 0,
          idle_time := 950, iowait_time := 0, irq_time := 0, softirq_time := 0 }
      = some ((70 - 50) / 70) ∧
    ((70 - 50 : ℚ) / 70) = 2 / 7 ∧
    runWriteLoop [{ timestamp := 1, utilization := 2 / 7 }]
      = { buffered := [], durable := [{ timestamp := 1, utilization := 2 / 7 }] } ∧
    (runWriteLoop [{ timestamp := 1, utilization := 2 / 7 }]).durable.length = 1 := by
  refine ⟨?_, ?_, ?_, by norm_num, ?_, ?_⟩
  · simp only [sub64, U64MOD_eq]
  · simp only [sub64, U64MOD_eq]
  · simp only [sample_cpu_usage, sub64, U64MOD]
    norm_num
  · simp [runWriteLoop, writeLoopTrace, CAction.apply, FileWriter.write_sample,
      FileWriter.flush]
  · simp [runWriteLoop, writeLoopTrace, CAction.apply, FileWriter.write_sample,
      FileWriter.flush]

/-- C10: each per-field delta is 64-bit wrapping subtraction, so a field that
decreases between the two snapshots (counter reset) produces the huge delta
`2^64 - (A.field - B.field)`, and the returned utilization can leave `[0,1]`:
with idle decreasing from 100 to 50 and user increasing by 60, the code
returns utilization `6`. -/
theorem c10_unsigned_wraparound :
    (∀ a b : Nat, a < b → b < U64MOD → sub64 a b = U64MOD - (b - a)) ∧
    sample_cpu_usage
        { user_time := 0, nice_time := 0, system_kernel_time := 0,
          idle_time := 100, iowait_time := 0, irq_time := 0, softirq_time := 0 }
        { user_time := 60, nice_time := 0, system_kernel_time := 0,
          idle_time := 50, iowait_time := 0, irq_time := 0, softirq_time := 0 }
      = some 6 ∧
    ¬ ((6 : ℚ) ≤ 1) := by
  refine ⟨?_, ?_, by norm_num⟩
  · intro a b hab hb
    simp only [sub64, U64MOD_eq] at *
    omega
  · simp only [sample_cpu_usage, sub64, U64MOD]
    norm_num

/-- Witness for C10: a concrete decreasing field, `5` down to `3`, wraps to
`2^64 - 2`. -/
theorem c10_unsigned_wraparound_witness :
    sub64 3 5 = U64MOD - (5 - 3) ∧ ¬ ((6 : ℚ) ≤ 1) :=
  ⟨c10_unsigned_wraparound.1 3 5 (by norm_num) (by norm_num [U64MOD]),
   c10_unsigned_wraparound.2.2⟩

/-- C3: the claimed shutdown protocol does not exist in `main.cpp`.  Both
loops are unconditional `while(true)` loops: the producer's push count keeps
growing by one per iteration after any point `k` at which a shutdown could
have been signaled (so it never issues "zero further pushes"), and the
consumer loop never performs a close of the `Writer` (so `close()` is called
zero times, not exactly once). -/
theorem c3_no_shutdown_protocol :
    (∀ k m : Nat, (producerTrace (k + m)).count PAction.push
        = (producerTrace k).count PAction.push + m) ∧
    (∀ samples : List UtilizationSample, CAction.close_writer ∉ writeLoopTrace samples) := by
  constructor
  · intro k m
    induction m with
    | zero => simp
    | succ n ih =>
      have hk : k + (n + 1) = (k + n) + 1 := by omega
      rw [hk, producerTrace, List.count_append, ih]
      have h1 : List.count PAction.push [PAction.sample_usage, PAction.push] = 1 := by decide
      rw [h1]
      omega
  · intro samples
    induction samples with
    | nil => simp [writeLoopTrace]
    | cons s rest ih => simp [writeLoopTrace, ih]

lemma writeLoop_foldl (samples : List UtilizationSample) (d : List UtilizationSample) :
    (writeLoopTrace samples).foldl CAction.apply { buffered := [], durable := d }
      = { buffered := [], durable := d ++ samples } := by
  induction samples generalizing d with
  | nil => simp [writeLoopTrace]
  | cons s rest ih =>
    simp only [writeLoopTrace, List.foldl_cons, CAction.apply, FileWriter.write_sample,
      FileWriter.flush]
    simp only [List.nil_append]
    rw [ih]
    simp

/-- C9: in the consumer loop of `main.cpp`, every `write_sample` action is
immediately followed by a `flush` action (before the next `pop`), and
consequently after the loop has processed any sequence of samples no record
remains buffered and unflushed: all of them are durable. -/
theorem c9_flush_follows_every_write :
    ∀ (samples : List UtilizationSample) (i : Nat) (s : UtilizationSample),
      ((writeLoopTrace samples).get? i = some (CAction.write_sample s) →
        (writeLoopTrace samples).get? (i + 1) = some CAction.flush) ∧
      (runWriteLoop samples).buffered = [] ∧
      (runWriteLoop samples).durable = samples := by
  intro samples i s
  refine ⟨?_, ?_, ?_⟩
  · induction samples generalizing i with
    | nil => intro h; simp [writeLoopTrace] at h
    | cons t rest ih =>
      cases i with
      | zero => intro h; simp [writeLoopTrace] at h
      | succ i1 =>
        cases i1 with
        | zero => intro _h; simp [writeLoopTrace]
        | succ i2 =>
          cases i2 with
          | zero => intro h; simp [writeLoopTrace] at h
          | succ i3 =>
            intro h
            simp only [writeLoopTrace, List.get?] at h ⊢
            exact ih i3 h
  · rw [runWriteLoop, writeLoop_foldl]
  · rw [runWriteLoop, writeLoop_foldl]
    simp

/-- Counterexample to C4 as stated: with every field non-decreasing and the
computed total delta nonzero, the utilization can still leave `[0,1]`.  From
the all-zero snapshot to `idle = 2^63`, `user = 2^63 + 1` (legal `uint64_t`
values, all fields non-decreasing), the seven deltas sum to `2^64 + 1`, which
wraps to a total of `1`; the numerator `total - idle_delta` wraps as well and
the code returns utilization `2^63 + 1 > 1`. -/
theorem c4_unit_interval_counterexample :
    cpusnap.wf
      { user_time := 2 ^ 63 + 1, nice_time := 0, system_kernel_time := 0,
        idle_time := 2 ^ 63, iowait_time := 0, irq_time := 0, softirq_time := 0 } ∧
    sample_cpu_usage
        { user_time := 0, nice_time := 0, system_kernel_time := 0,
          idle_time := 0, iowait_time := 0, irq_time := 0, softirq_time := 0 }
        { user_time := 2 ^ 63 + 1, nice_time := 0, system_kernel_time := 0,
          idle_time := 2 ^ 63, iowait_time := 0, irq_time := 0, softirq_time := 0 }
      = some ((2 ^ 63 + 1 : ℚ)) ∧
    ¬ ((2 ^ 63 + 1 : ℚ) ≤ 1) := by
  refine ⟨by decide, ?_, by norm_num⟩
  simp only [sample_cpu_usage, sub64, U64MOD]
  norm_num

/-- C4 amended: if additionally the (true) deltas do not overflow the 64-bit
sum, the utilization is in `[0,1]`.  Hypotheses: `B` is a legal snapshot,
every field is non-decreasing from `A` to `B`, the sum of the seven deltas is
below `2^64`, and that sum is nonzero. -/
theorem c4_utilization_in_unit_interval (A B : cpusnap) (hB : B.wf)
    (h1 : A.user_time ≤ B.user_time) (h2 : A.nice_time ≤ B.nice_time)
    (h3 : A.system_kernel_time ≤ B.system_kernel_time)
    (h4 : A.idle_time ≤ B.idle_time)
    (h5 : A.iowait_time ≤ B.iowait_time) (h6 : A.irq_time ≤ B.irq_time)
    (h7 : A.softirq_time ≤ B.softirq_time)
    (hsum : (B.user_time - A.user_time) + (B.nice_time - A.nice_time) +
        (B.system_kernel_time - A.system_kernel_time) + (B.idle_time - A.idle_time) +
        (B.iowait_time - A.iowait_time) + (B.irq_time - A.irq_time) +
        (B.softirq_time - A.softirq_time) < U64MOD)
    (hpos : 0 < (B.user_time - A.user_time) + (B.nice_time - A.nice_time) +
        (B.system_kernel_time - A.system_kernel_time) + (B.idle_time - A.idle_time) +
        (B.iowait_time - A.iowait_time) + (B.irq_time - A.irq_time) +
        (B.softirq_time - A.softirq_time)) :
    ∃ u : ℚ, sample_cpu_usage A B = some u ∧ 0 ≤ u ∧ u ≤ 1 := by
  obtain ⟨hw1, hw2, hw3, hw4, hw5, hw6, hw7⟩ := hB
  have e1 : sub64 B.user_time A.user_time = B.user_time - A.user_time :=
    sub64_of_le h1 hw1
  have e2 : sub64 B.nice_time A.nice_time = B.nice_time - A.nice_time :=
    sub64_of_le h2 hw2
  have e3 : sub64 B.system_kernel_time A.system_kernel_time
      = B.system_kernel_time - A.system_kernel_time := sub64_of_le h3 hw3
  have e4 : sub64 B.idle_time A.idle_time = B.idle_time - A.idle_time :=
    sub64_of_le h4 hw4
  have e5 : sub64 B.iowait_time A.iowait_time = B.iowait_time - A.iowait_time :=
    sub64_of_le h5 hw5
  have e6 : sub64 B.irq_time A.irq_time = B.irq_time - A.irq_time :=
    sub64_of_le h6 hw6
  have e7 : sub64 B.softirq_time A.softirq_time
      = B.softirq_time - A.softirq_time := sub64_of_le h7 hw7
  simp only [sample_cpu_usage, e1, e2, e3, e4, e5, e6, e7]
  rw [Nat.mod_eq_of_lt hsum]
  rw [if_neg (by omega)]
  have hnum : sub64
      ((B.user_time - A.user_time) + (B.nice_time - A.nice_time) +
        (B.system_kernel_time - A.system_kernel_time) + (B.idle_time - A.idle_time) +
        (B.iowait_time - A.iowait_time) + (B.irq_time - A.irq_time) +
        (B.softirq_time - A.softirq_time))
      (B.idle_time - A.idle_time)
      = ((B.user_time - A.user_time) + (B.nice_time - A.nice_time) +
          (B.system_kernel_time - A.system_kernel_time) + (B.idle_time - A.idle_time) +
          (B.iowait_time - A.iowait_time) + (B.irq_time - A.irq_time) +
          (B.softirq_time - A.softirq_time)) - (B.idle_time - A.idle_time) :=
    sub64_of_le (by omega) hsum
  rw [hnum]
  refine ⟨_, rfl, ?_, ?_⟩
  · exact div_nonneg (Nat.cast_nonneg _) (Nat.cast_nonneg _)
  · rw [div_le_one (by exact_mod_cast hpos)]
    exact_mod_cast Nat.sub_le _ _

/-- Witness for the amended C4 at the C5 scenario counters. -/
theorem c4_utilization_in_unit_interval_witness :
    ∃ u : ℚ, sample_cpu_usage
        { user_time := 100, nice_time := 0, system_kernel_time := 0,
          idle_time := 900, iowait_time := 0, irq_time := 0, softirq_time := 0 }
        { user_time := 120, nice_time := 0, system_kernel_time := 0,
          idle_time := 950, iowait_time := 0, irq_time := 0, softirq_time := 0 }
      = some u ∧ 0 ≤ u ∧ u ≤ 1 :=
  c4_utilization_in_unit_interval
    { user_time := 100, nice_time := 0, system_kernel_time := 0,
      idle_time := 900, iowait_time := 0, irq_time := 0, softirq_time := 0 }
    { user_time := 120, nice_time := 0, system_kernel_time := 0,
      idle_time := 950, iowait_time := 0, irq_time := 0, softirq_time := 0 }
    (by decide) (by decide) (by decide) (by decide) (by decide) (by decide)
    (by decide) (by decide) (by decide) (by decide)

/-- C6: strict FIFO.  Pushing `S1, S2, S3` in that order into a fresh open
queue with room for them and popping three times yields `S1, S2, S3` in that
order, leaving the queue empty: no reordering, no duplication, no drop. -/
theorem c6_fifo_order {α : Type} (S1 S2 S3 : α) (cap : Nat) (hcap : 3 ≤ cap) :
    ∃ q1 q2 q3 r1 r2 r3 : SampleQueue α,
      SampleQueue.push { buffer := [], closed := false, cap := cap } S1 = (.ok, q1) ∧
      q1.push S2 = (.ok, q2) ∧
      q2.push S3 = (.ok, q3) ∧
      q3.pop = (.item S1, r1) ∧
      r1.pop = (.item S2, r2) ∧
      r2.pop = (.item S3, r3) ∧
      r3.buffer = [] := by
  have hne0 : ¬ (cap ≤ 0) := by omega
  have hne1 : ¬ (cap ≤ 1) := by omega
  have hne2 : ¬ (cap ≤ 2) := by omega
  refine ⟨{ buffer := [S1], closed := false, cap := cap },
    { buffer := [S1, S2], closed := false, cap := cap },
    { buffer := [S1, S2, S3], closed := false, cap := cap },
    { buffer := [S2, S3], closed := false, cap := cap },
    { buffer := [S3], closed := false, cap := cap },
    { buffer := [], closed := false, cap := cap },
    ?_, ?_, ?_, ?_, ?_, ?_, rfl⟩
  · simp [SampleQueue.push, hne0]
  · simp [SampleQueue.push, hne1]
  · simp [SampleQueue.push, hne2]
  · simp [SampleQueue.pop]
  · simp [SampleQueue.pop]
  · simp [SampleQueue.pop]

/-- Witness for C6 with capacity 10 and three concrete samples. -/
theorem c6_fifo_order_witness :
    ∃ q1 q2 q3 r1 r2 r3 : SampleQueue UtilizationSample,
      SampleQueue.push { buffer := [], closed := false, cap := 10 }
          { timestamp := 1, utilization := 1 / 4 } = (.ok, q1) ∧
      q1.push { timestamp := 2, utilization := 1 / 2 } = (.ok, q2) ∧
      q2.push { timestamp := 3, utilization := 3 / 4 } = (.ok, q3) ∧
      q3.pop = (.item { timestamp := 1, utilization := 1 / 4 }, r1) ∧
      r1.pop = (.item { timestamp := 2, utilization := 1 / 2 }, r2) ∧
      r2.pop = (.item { timestamp := 3, utilization := 3 / 4 }, r3) ∧
      r3.buffer = [] :=
  c6_fifo_order { timestamp := 1, utilization := 1 / 4 }
    { timestamp := 2, utilization := 1 / 2 }
    { timestamp := 3, utilization := 3 / 4 } 10 (by norm_num)

/-- C8: a `push` after `close()` fails with `QueueClosedError` and leaves the
queue untouched; `close()` is idempotent and discards no buffered sample. -/
theorem c8_close_contract {α : Type} (q : SampleQueue α) (s : α) :
    (q.closed = true → q.push s = (.QueueClosedError, q)) ∧
    q.close.close = q.close ∧
    q.close.buffer = q.buffer := by
  refine ⟨?_, rfl, rfl⟩
  intro h
  simp [SampleQueue.push, h]

/-- Witness for C8 on a concrete closed queue holding one sample. -/
theorem c8_close_contract_witness :
    SampleQueue.push
        ({ buffer := [{ timestamp := 7, utilization := 1 / 3 }], closed := true, cap := 10 } :
          SampleQueue UtilizationSample)
        { timestamp := 8, utilization := 2 / 3 }
      = (.QueueClosedError,
          { buffer := [{ timestamp := 7, utilization := 1 / 3 }], closed := true, cap := 10 }) ∧
    SampleQueue.close (SampleQueue.close
        ({ buffer := [{ timestamp := 7, utilization := 1 / 3 }], closed := true, cap := 10 } :
          SampleQueue UtilizationSample))
      = SampleQueue.close
          ({ buffer := [{ timestamp := 7, utilization := 1 / 3 }], closed := true, cap := 10 } :
            SampleQueue UtilizationSample) ∧
    (SampleQueue.close
        ({ buffer := [{ timestamp := 7, utilization := 1 / 3 }], closed := true, cap := 10 } :
          SampleQueue UtilizationSample)).buffer
      = [{ timestamp := 7, utilization := 1 / 3 }] :=
  ⟨(c8_close_contract
      ({ buffer := [{ timestamp := 7, utilization := 1 / 3 }], closed := true, cap := 10 } :
        SampleQueue UtilizationSample)
      { timestamp := 8, utilization := 2 / 3 }).1 rfl,
   (c8_close_contract
      ({ buffer := [{ timestamp := 7, utilization := 1 / 3 }], closed := true, cap := 10 } :
        SampleQueue UtilizationSample)
      { timestamp := 8, utilization := 2 / 3 }).2.1,
   (c8_close_contract
      ({ buffer := [{ timestamp := 7, utilization := 1 / 3 }], closed := true, cap := 10 } :
        SampleQueue UtilizationSample)
      { timestamp := 8, utilization := 2 / 3 }).2.2⟩

lemma prodStep_cons {α : Type} {L : List α} {cap : Nat} {r : ProdConsState α}
    {s : α} {rest : List α}
    (hinv : QInv L cap r) (hcap : L.length ≤ cap) (hp : r.pending = s :: rest) :
    prodStep r
      = { pending := rest,
          q := { buffer := r.q.buffer ++ [s], closed := false, cap := cap },
          collected := r.collected } := by
  obtain ⟨he, hcl, hc⟩ := hinv
  have hlen : ¬ (cap ≤ r.q.buffer.length) := by
    have h2 := congrArg List.length he
    rw [hp] at h2
    simp at h2
    omega
  have hpush : r.q.push s
      = (.ok, { buffer := r.q.buffer ++ [s], closed := false, cap := cap }) := by
    simp [SampleQueue.push, hcl, hlen, hc]
  simp [prodStep, hp, hpush]

lemma qinv_prodStep {α : Type} {L : List α} {cap : Nat} {r : ProdConsState α}
    (hinv : QInv L cap r) (hcap : L.length ≤ cap) : QInv L cap (prodStep r) := by
  cases hp : r.pending with
  | nil =>
    have hstep : prodStep r = r := by simp [prodStep, hp]
    rw [hstep]
    exact hinv
  | cons s rest =>
    rw [prodStep_cons hinv hcap hp]
    obtain ⟨he, hcl, hc⟩ := hinv
    refine ⟨?_, rfl, rfl⟩
    rw [hp] at he
    simpa [QInv, List.append_assoc] using he

lemma qinv_consStep {α : Type} {L : List α} {cap : Nat} {r : ProdConsState α}
    (hinv : QInv L cap r) : QInv L cap (consStep r) := by
  obtain ⟨he, hcl, hc⟩ := hinv
  cases hb : r.q.buffer with
  | nil =>
    have hpop : r.q.pop = (.blocked, r.q) := by
      simp [SampleQueue.pop, hb, hcl]
    have hstep : consStep r = r := by simp [consStep, hpop]
    rw [hstep]
    exact ⟨he, hcl, hc⟩
  | cons s rest =>
    have hpop : r.q.pop
        = (.item s, { buffer := rest, closed := r.q.closed, cap := r.q.cap }) := by
      simp [SampleQueue.pop, hb]
    have hstep : consStep r
        = { pending := r.pending,
            q := { buffer := rest, closed := r.q.closed, cap := r.q.cap },
            collected := r.collected ++ [s] } := by
      simp [consStep, hpop]
    rw [hstep]
    refine ⟨?_, hcl, hc⟩
    rw [hb] at he
    simpa [List.append_assoc] using he

lemma qinv_runSched {α : Type} {L : List α} {cap : Nat} (sched : List Bool)
    {r : ProdConsState α} (hinv : QInv L cap r) (hcap : L.length ≤ cap) :
    QInv L cap (runSched sched r) := by
  induction sched generalizing r with
  | nil => exact hinv
  | cons b bs ih =>
    cases b with
    | false => exact ih (qinv_consStep hinv)
    | true => exact ih (qinv_prodStep hinv hcap)

lemma finishPushes_empties {α : Type} {L : List α} {cap : Nat} :
    ∀ (n : Nat) (r : ProdConsState α), QInv L cap r → L.length ≤ cap →
      r.pending.length ≤ n →
      QInv L cap (finishPushes n r) ∧ (finishPushes n r).pending = [] := by
  intro n
  induction n with
  | zero =>
    intro r hinv hcap hlen
    exact ⟨hinv, List.length_eq_zero.mp (Nat.le_zero.mp hlen)⟩
  | succ n ih =>
    intro r hinv hcap hlen
    cases hp : r.pending with
    | nil =>
      have hstep : prodStep r = r := by simp [prodStep, hp]
      have hres := ih r hinv hcap (by rw [hp]; exact Nat.zero_le n)
      show QInv L cap (finishPushes n (prodStep r)) ∧ (finishPushes n (prodStep r)).pending = []
      rw [hstep]
      exact hres
    | cons s rest =>
      have hnew := qinv_prodStep hinv hcap
      have hplen : (prodStep r).pending.length ≤ n := by
        rw [prodStep_cons hinv hcap hp]
        rw [hp] at hlen
        simp at hlen ⊢
        omega
      exact ih (prodStep r) hnew hcap hplen

lemma drainAux_closed {α : Type} : ∀ (buf : List α) (cp : Nat),
    drainAux buf.length { buffer := buf, closed := true, cap := cp } = buf := by
  intro buf
  induction buf with
  | nil => intro cp; rfl
  | cons s rest ih =>
    intro cp
    show drainAux (rest.length + 1) { buffer := s :: rest, closed := true, cap := cp }
      = s :: rest
    simp only [drainAux, SampleQueue.pop]
    rw [ih]

lemma drain_closed {α : Type} (buf : List α) (cp : Nat) :
    drain { buffer := buf, closed := true, cap := cp } = buf :=
  drainAux_closed buf cp

/-- C7: no loss.  For any sequence `L` of `N` samples pushed by the producer
into a fresh queue that can hold them, under an arbitrary interleaving of
producer and consumer steps followed by close-and-drain, the consumer obtains
exactly the `N` pushed samples (in order), and a pop on the closed, drained
queue yields the "no more data" sentinel. -/
theorem c7_no_loss {α : Type} (L : List α) (cap : Nat) (sched : List Bool)
    (hcap : L.length ≤ cap) :
    producerConsumerRun sched L cap = L ∧
    (SampleQueue.pop { buffer := ([] : List α), closed := true, cap := cap }).1
      = PopResult.noMoreData := by
  refine ⟨?_, rfl⟩
  have h0 : QInv L cap (initState L cap) := ⟨by simp [initState], rfl, rfl⟩
  have h1 := qinv_runSched sched h0 hcap
  have h2 := finishPushes_empties
    (runSched sched (initState L cap)).pending.length
    (runSched sched (initState L cap)) h1 hcap le_rfl
  obtain ⟨⟨he, hcl, hc⟩, hpend⟩ := h2
  show (finishPushes (runSched sched (initState L cap)).pending.length
      (runSched sched (initState L cap))).collected ++
    drain (finishPushes (runSched sched (initState L cap)).pending.length
      (runSched sched (initState L cap))).q.close = L
  have hclose : (finishPushes (runSched sched (initState L cap)).pending.length
        (runSched sched (initState L cap))).q.close
      = { buffer := (finishPushes (runSched sched (initState L cap)).pending.length
            (runSched sched (initState L cap))).q.buffer, closed := true,
          cap := (finishPushes (runSched sched (initState L cap)).pending.length
            (runSched sched (initState L cap))).q.cap } := rfl
  rw [hclose, drain_closed]
  rw [hpend, List.append_nil] at he
  exact he

/-- Witness for C7 with two concrete samples, capacity 10 and an interleaved
schedule. -/
theorem c7_no_loss_witness :
    producerConsumerRun [true, false, true, false]
        ([{ timestamp := 1, utilization := 1 / 4 },
          { timestamp := 2, utilization := 1 / 2 }] : List UtilizationSample) 10
      = [{ timestamp := 1, utilization := 1 / 4 }, { timestamp := 2, utilization := 1 / 2 }] ∧
    (SampleQueue.pop { buffer := ([] : List UtilizationSample), closed := true, cap := 10 }).1
      = PopResult.noMoreData :=
  c7_no_loss
    ([{ timestamp := 1, utilization := 1 / 4 },
      { timestamp := 2, utilization := 1 / 2 }] : List UtilizationSample)
    10 [true, false, true, false] (by norm_num)

/-- Witness for C9 at the concrete one-sample run: position 1 of the trace is
the write, position 2 is the flush, and nothing stays buffered. -/
theorem c9_flush_follows_every_write_witness :
    (writeLoopTrace [{ timestamp := 0, utilization := 0 }]).get? 2 = some CAction.flush ∧
    (runWriteLoop [{ timestamp := 0, utilization := 0 }]).buffered = [] :=
  ⟨(c9_flush_follows_every_write [{ timestamp := 0, utilization := 0 }] 1
      { timestamp := 0, utilization := 0 }).1 (by simp [writeLoopTrace]),
   (c9_flush_follows_every_write [{ timestamp := 0, utilization := 0 }] 1
      { timestamp := 0, utilization := 0 }).2.1⟩
